import Mathlib

/-! Verification of the capability-compatibility resolver of the
VSCodium Copilot installer script against its design specification.
The definitions below are shallow embeddings of the Python functions in
`codium-copilot_Version13(1).py`; filesystem and network effects are
modelled by explicit environment values (file contents, fetch outcomes). -/

/-- Embeds `normalize_api_proposal` (source line 365):
`proposal.split('@')[0]`, the prefix of the string before the first `@`. -/
def normalize_api_proposal (proposal : String) : String :=
  String.mk (proposal.toList.takeWhile (fun c => !(c == '@')))

/-- Embeds `check_api_compatibility` (source lines 370-385).  The supported
set is modelled as a list of names; membership and emptiness are the only
operations the source performs on the Python `set`. -/
def check_api_compatibility (required_proposals : List String)
    (supported_proposals : List String) : Bool × List String :=
  if supported_proposals.isEmpty then (true, [])
  else
    let unsupported := required_proposals.filter
      (fun proposal => !(supported_proposals.contains (normalize_api_proposal proposal)))
    (unsupported.isEmpty, unsupported)

/-- C1: calling the compatibility gate with an empty supported set returns
`(true, [])` for every requirement list — permissive mode accepts
everything and reports no unsupported requirements. -/
theorem claim_C1_empty_supported_permissive (R : List String) :
    check_api_compatibility R [] = (true, []) := rfl

/-- C2: for every non-empty supported set `S`, the gate accepts iff every
requirement's base name (revision suffix stripped) is in `S`; the
unsupported list is exactly the failing requirements in input order; and
acceptance depends only on the base names, so the revision suffix never
influences acceptance or rejection. -/
theorem claim_C2_nonempty_supported_gate (R S : List String) (hS : S ≠ []) :
    ((check_api_compatibility R S).1 = true ↔
        ∀ r ∈ R, normalize_api_proposal r ∈ S) ∧
    (check_api_compatibility R S).2 =
      R.filter (fun proposal => !(S.contains (normalize_api_proposal proposal))) ∧
    ∀ R' : List String,
      R.map normalize_api_proposal = R'.map normalize_api_proposal →
      (check_api_compatibility R S).1 = (check_api_compatibility R' S).1 := by
  have hempty : S.isEmpty = false := by
    cases S with
    | nil => exact absurd rfl hS
    | cons s S' => rfl
  have hfst : ∀ T : List String,
      (check_api_compatibility T S).1 = true ↔
        ∀ r ∈ T, normalize_api_proposal r ∈ S := by
    intro T
    simp only [check_api_compatibility, hempty, Bool.false_eq_true, if_false]
    simp [List.isEmpty_iff, List.filter_eq_nil_iff]
  refine ⟨hfst R, ?_, ?_⟩
  · simp only [check_api_compatibility, hempty, Bool.false_eq_true, if_false]
  · intro R' hmap
    have hR : (∀ r ∈ R, normalize_api_proposal r ∈ S) ↔
        (∀ b ∈ R.map normalize_api_proposal, b ∈ S) := by
      simp
    have hR' : (∀ r ∈ R', normalize_api_proposal r ∈ S) ↔
        (∀ b ∈ R'.map normalize_api_proposal, b ∈ S) := by
      simp
    have : (check_api_compatibility R S).1 = true ↔
        (check_api_compatibility R' S).1 = true := by
      rw [hfst R, hfst R', hR, hR', hmap]
    exact Bool.eq_iff_iff.mpr this

/-! ### Engine version comparator

`is_version_compatible` (source lines 679-687) delegates parsing and
comparison to `packaging.version` (PEP 440).  The definitions below embed
the library's `Version` parser (`VERSION_PATTERN` with `re.VERBOSE` and
`re.IGNORECASE`, anchored between optional whitespace) and its `_cmpkey`
comparison, over ASCII character lists. -/

/-- ASCII whitespace accepted by the anchoring `\s*` of the version regex. -/
def isPySpace (c : Char) : Bool :=
  c == ' ' || c == '\t' || c == '\n' || c == '\r' ||
    c == Char.ofNat 11 || c == Char.ofNat 12

/-- Separator characters `[-_.]` used between PEP 440 version segments. -/
def isVerSep (c : Char) : Bool :=
  c == '-' || c == '_' || c == '.'

/-- Numeric value of a list of decimal digits (Python `int` of the run). -/
def natOfDigits (ds : List Char) : Nat :=
  ds.foldl (fun n c => n * 10 + (c.toNat - 48)) 0

/-- Read a maximal nonempty run of decimal digits (`[0-9]+`). -/
def readNat (l : List Char) : Option (Nat × List Char) :=
  match l.takeWhile Char.isDigit with
  | [] => none
  | ds => some (natOfDigits ds, l.dropWhile Char.isDigit)

/-- Read `(\.[0-9]+)*` after the leading release number.  The fuel argument
(instantiated with the input length) keeps the recursion structural so the
definition evaluates by kernel reduction. -/
def readDotNats : Nat → List Char → List Nat × List Char
  | 0, l => ([], l)
  | fuel + 1, l =>
    match l with
    | '.' :: rest =>
      match readNat rest with
      | some (n, rest') =>
        let p := readDotNats fuel rest'
        (n :: p.1, p.2)
      | none => ([], l)
    | _ => ([], l)

/-- Does the input start with the given list of characters? -/
def startsWithChars : List Char → List Char → Bool
  | [], _ => true
  | _ :: _, [] => false
  | k :: ks, c :: cs => k == c && startsWithChars ks cs

/-- First word of `kws` (in order, as a regex alternation tried left to
right) that starts the input; returns it with the remaining input. -/
def matchWord : List String → List Char → Option (String × List Char)
  | [], _ => none
  | kw :: kws, l =>
    if startsWithChars kw.toList l then some (kw, l.drop kw.length)
    else matchWord kws l

/-- Read the `[-_\.]?([0-9]+)?` numeral that may follow a letter segment;
an absent numeral is the implicit `0` of `_parse_letter_version`.  The
greedy regex consumes a separator even when no digits follow it. -/
def readOptSepNum (l : List Char) : Nat × List Char :=
  match l with
  | c :: rest =>
    if isVerSep c then
      match readNat rest with
      | some (n, r) => (n, r)
      | none => (0, rest)
    else
      match readNat l with
      | some (n, r) => (n, r)
      | none => (0, l)
  | [] => (0, [])

/-- Spelling normalization of `_parse_letter_version` for pre-release
words. -/
def normalizePreLetter (w : String) : String :=
  if w == "alpha" then "a"
  else if w == "beta" then "b"
  else if w == "c" || w == "pre" || w == "preview" then "rc"
  else w

/-- Pre-release words in the alternation order of `VERSION_PATTERN`:
`alpha|a|beta|b|preview|pre|c|rc`. -/
def preWords : List String := ["alpha", "a", "beta", "b", "preview", "pre", "c", "rc"]

/-- Post-release words in alternation order: `post|rev|r`. -/
def postWords : List String := ["post", "rev", "r"]

/-- Read the optional pre-release group
`[-_\.]?(alpha|a|beta|b|preview|pre|c|rc)[-_\.]?([0-9]+)?`; `none` in the
first component means the group matched nothing. -/
def readPre (l : List Char) : Option (String × Nat) × List Char :=
  match l with
  | c :: rest =>
    if isVerSep c then
      match matchWord preWords rest with
      | some (kw, r) =>
        let p := readOptSepNum r
        (some (normalizePreLetter kw, p.1), p.2)
      | none => (none, l)
    else
      match matchWord preWords l with
      | some (kw, r) =>
        let p := readOptSepNum r
        (some (normalizePreLetter kw, p.1), p.2)
      | none => (none, l)
  | [] => (none, [])

/-- Read the optional post-release group: `-([0-9]+)` or
`[-_\.]?(post|rev|r)[-_\.]?([0-9]+)?`.  Every spelling normalizes to the
letter `post`, so only the numeral is recorded. -/
def readPost (l : List Char) : Option Nat × List Char :=
  let letterForm := fun (l' : List Char) =>
    match l' with
    | c :: rest =>
      if isVerSep c then
        match matchWord postWords rest with
        | some (_, r) =>
          let p := readOptSepNum r
          ((some p.1 : Option Nat), p.2)
        | none => ((none : Option Nat), l')
      else
        match matchWord postWords l' with
        | some (_, r) =>
          let p := readOptSepNum r
          ((some p.1 : Option Nat), p.2)
        | none => ((none : Option Nat), l')
    | [] => ((none : Option Nat), ([] : List Char))
  match l with
  | '-' :: rest =>
    match readNat rest with
    | some (n, r) => (some n, r)
    | none => letterForm l
  | _ => letterForm l

/-- Read the optional dev-release group `[-_\.]?dev[-_\.]?([0-9]+)?`. -/
def readDev (l : List Char) : Option Nat × List Char :=
  match l with
  | c :: rest =>
    if isVerSep c then
      match matchWord ["dev"] rest with
      | some (_, r) =>
        let p := readOptSepNum r
        (some p.1, p.2)
      | none => (none, l)
    else
      match matchWord ["dev"] l with
      | some (_, r) =>
        let p := readOptSepNum r
        (some p.1, p.2)
      | none => (none, l)
  | [] => (none, [])

/-- A character allowed in a local version segment (`[a-z0-9]` after
lowercasing). -/
def isLocalChar (c : Char) : Bool :=
  c.isDigit || ('a' ≤ c && c ≤ 'z')

/-- One local version segment (`_parse_local_version`): all-digit segments
become integers, the rest stay strings. -/
def mkLocalSeg (run : List Char) : Sum Nat String :=
  if run.all Char.isDigit then Sum.inl (natOfDigits run) else Sum.inr (String.mk run)

/-- Read the `([-_\.][a-z0-9]+)*` continuation of a local version. -/
def readLocalTail : Nat → List Char → List (Sum Nat String) × List Char
  | 0, l => ([], l)
  | fuel + 1, l =>
    match l with
    | c :: rest =>
      if isVerSep c then
        match rest.takeWhile isLocalChar with
        | [] => ([], l)
        | run =>
          let p := readLocalTail fuel (rest.dropWhile isLocalChar)
          (mkLocalSeg run :: p.1, p.2)
      else ([], l)
    | [] => ([], [])

/-- Read the optional local version `\+[a-z0-9]+([-_\.][a-z0-9]+)*`. -/
def readLocal (l : List Char) : Option (List (Sum Nat String)) × List Char :=
  match l with
  | '+' :: rest =>
    match rest.takeWhile isLocalChar with
    | [] => (none, l)
    | run =>
      let p := readLocalTail rest.length (rest.dropWhile isLocalChar)
      (some (mkLocalSeg run :: p.1), p.2)
  | _ => (none, l)

/-- A parsed PEP 440 version: the normalized fields of
`packaging.version._Version`. -/
structure PyVersion where
  epoch : Nat
  release : List Nat
  pre : Option (String × Nat)
  post : Option Nat
  dev : Option Nat
  localVer : Option (List (Sum Nat String))
deriving DecidableEq

/-- Embeds `packaging.version.parse` on ASCII input: strip the surrounding
whitespace, lowercase (the regex is case-insensitive), match the anchored
`VERSION_PATTERN`, and normalize the captured groups.  `none` models a
raised `InvalidVersion`. -/
def pyVersionParse (s : String) : Option PyVersion :=
  let l0 := ((s.toList.dropWhile isPySpace).reverse.dropWhile isPySpace).reverse.map Char.toLower
  let l1 := match l0 with
            | 'v' :: rest => rest
            | _ => l0
  let el :=
    match readNat l1 with
    | some (n, r) =>
      match r with
      | '!' :: r' => (n, r')
      | _ => (0, l1)
    | none => (0, l1)
  match readNat el.2 with
  | none => none
  | some (r0, lrel) =>
    let p := readDotNats lrel.length lrel
    let release := r0 :: p.1
    let pr := readPre p.2
    let po := readPost pr.2
    let dv := readDev po.2
    let lo := readLocal dv.2
    match lo.2 with
    | [] => some ⟨el.1, release, pr.1, po.1, dv.1, lo.1⟩
    | _ => none

/-- Lexicographic comparison of integer tuples (Python tuple ordering:
a strict prefix is smaller). -/
def cmpNatList : List Nat → List Nat → Ordering
  | [], [] => .eq
  | [], _ :: _ => .lt
  | _ :: _, [] => .gt
  | x :: xs, y :: ys => (compare x y).then (cmpNatList xs ys)

/-- `_cmpkey` compares release tuples with trailing zeros removed. -/
def dropTrailingZeros (l : List Nat) : List Nat :=
  (l.reverse.dropWhile (fun x => x == 0)).reverse

/-- Three-way string comparison (Python `str` ordering on ASCII). -/
def cmpString (a b : String) : Ordering :=
  if a < b then .lt else if a = b then .eq else .gt

/-- The pre-release component of `_cmpkey`: `NegativeInfinity` when only a
dev segment is present, `Infinity` when there is no pre-release, otherwise
the `(letter, numeral)` pair. -/
inductive PreKey where
  | negInf
  | val (letter : String) (n : Nat)
  | inf
deriving DecidableEq

/-- The pre-release sort component of a parsed version. -/
def preKeyOf (v : PyVersion) : PreKey :=
  match v.pre with
  | some (w, n) => .val w n
  | none =>
    match v.post, v.dev with
    | none, some _ => .negInf
    | _, _ => .inf

def cmpPreKey : PreKey → PreKey → Ordering
  | .negInf, .negInf => .eq
  | .negInf, _ => .lt
  | _, .negInf => .gt
  | .val w n, .val w' n' => (cmpString w w').then (compare n n')
  | .val _ _, .inf => .lt
  | .inf, .val _ _ => .gt
  | .inf, .inf => .eq

/-- The post component of `_cmpkey`: `NegativeInfinity` when absent, else
`("post", n)` (the letter is constant, so only numerals compare). -/
def cmpPostKey : Option Nat → Option Nat → Ordering
  | none, none => .eq
  | none, some _ => .lt
  | some _, none => .gt
  | some n, some m => compare n m

/-- The dev component of `_cmpkey`: `Infinity` when absent. -/
def cmpDevKey : Option Nat → Option Nat → Ordering
  | none, none => .eq
  | none, some _ => .gt
  | some _, none => .lt
  | some n, some m => compare n m

/-- Local segments compare as `(i, "")` for integers and
`(NegativeInfinity, s)` for strings, so string segments sort below
integer segments. -/
def cmpLocalSeg : Sum Nat String → Sum Nat String → Ordering
  | .inl i, .inl j => compare i j
  | .inl _, .inr _ => .gt
  | .inr _, .inl _ => .lt
  | .inr s, .inr t => cmpString s t

def cmpLocalList : List (Sum Nat String) → List (Sum Nat String) → Ordering
  | [], [] => .eq
  | [], _ :: _ => .lt
  | _ :: _, [] => .gt
  | x :: xs, y :: ys => (cmpLocalSeg x y).then (cmpLocalList xs ys)

/-- The local component of `_cmpkey`: `NegativeInfinity` when absent. -/
def cmpLocalKey : Option (List (Sum Nat String)) → Option (List (Sum Nat String)) → Ordering
  | none, none => .eq
  | none, some _ => .lt
  | some _, none => .gt
  | some a, some b => cmpLocalList a b

/-- Comparison of two parsed versions through the `_cmpkey` sorting key
(lexicographic over its six components). -/
def cmpPyVersion (a b : PyVersion) : Ordering :=
  (compare a.epoch b.epoch).then
    ((cmpNatList (dropTrailingZeros a.release) (dropTrailingZeros b.release)).then
      ((cmpPreKey (preKeyOf a) (preKeyOf b)).then
        ((cmpPostKey a.post b.post).then
          ((cmpDevKey a.dev b.dev).then
            (cmpLocalKey a.localVer b.localVer)))))

/-- Embeds `parse_engine_requirement` (source line 674):
`engine_str.lstrip('^>=~')`. -/
def parse_engine_requirement (engine_str : String) : String :=
  String.mk (engine_str.toList.dropWhile
    (fun c => c == '^' || c == '>' || c == '=' || c == '~'))

/-- Embeds `is_version_compatible` (source lines 679-687): parse the host
version and the prefix-stripped requirement and test `host ≥ required`;
a parse failure (`InvalidVersion`) on either side yields `false`. -/
def is_version_compatible (vscode_version : String) (engine_requirement : String) : Bool :=
  match pyVersionParse vscode_version,
      pyVersionParse (parse_engine_requirement engine_requirement) with
  | some hv, some rv => !(cmpPyVersion hv rv == .lt)
  | _, _ => false

/-! ### API proposal detection (capability source readers and resolver) -/

def quoteChar : Char := Char.ofNat 34

def apostropheChar : Char := Char.ofNat 39

def openBraceChar : Char := Char.ofNat 123

def isQuote (c : Char) : Bool := c == quoteChar || c == apostropheChar

/-- `[a-zA-Z]`, the first character of a proposal name. -/
def isNameStart (c : Char) : Bool := c.isAlpha

/-- `[a-zA-Z0-9_]`, the remaining characters of a proposal name. -/
def isNameChar (c : Char) : Bool := c.isAlpha || c.isDigit || c == '_'

/-- Try to match the extraction regex of `get_runtime_api_proposals`
(source line 276), `["\']?([a-zA-Z][a-zA-Z0-9_]*)["\']?\s*:\s*\x7b\s*version\s*:\s*\d`,
at the head of the input; on success return the captured name and the
input position right after the match. -/
def matchProposalAt (l : List Char) : Option (List Char × List Char) :=
  let l1 := match l with
            | c :: rest => if isQuote c then rest else l
            | [] => l
  match l1 with
  | c :: rest =>
    if isNameStart c then
      let nm := c :: rest.takeWhile isNameChar
      let l2 := rest.dropWhile isNameChar
      let l3 := match l2 with
                | q :: r => if isQuote q then r else l2
                | [] => l2
      match l3.dropWhile isPySpace with
      | ':' :: r1 =>
        match r1.dropWhile isPySpace with
        | b :: r3 =>
          if b == openBraceChar then
            let r4 := r3.dropWhile isPySpace
            if startsWithChars "version".toList r4 then
              match (r4.drop 7).dropWhile isPySpace with
              | ':' :: r7 =>
                match r7.dropWhile isPySpace with
                | d :: r9 => if d.isDigit then some (nm, r9) else none
                | [] => none
              | _ => none
            else none
          else none
        | [] => none
      | _ => none
    else none
  | [] => none

/-- `re.findall` driver for the extraction regex: scan left to right,
emit each match's captured name and resume right after the match.  The
fuel (instantiated with the input length) bounds the number of steps. -/
def findAllProposalsAux : Nat → List Char → List String
  | 0, _ => []
  | fuel + 1, l =>
    match matchProposalAt l with
    | some (nm, post) => String.mk nm :: findAllProposalsAux fuel post
    | none =>
      match l with
      | [] => []
      | _ :: rest => findAllProposalsAux fuel rest

/-- All names captured by the extraction regex over a file's content. -/
def findAllProposals (content : List Char) : List String :=
  findAllProposalsAux (content.length + 1) content

/-- The state of one candidate source file on disk: missing, existing but
unreadable (reading raises), or readable with the given content. -/
inductive SourceFile where
  | absent
  | unreadable
  | readable (content : List Char)
deriving DecidableEq

/-- Embeds `get_runtime_api_proposals` (source lines 264-286): pattern-scan
the file for `name: \x7b version: N` declarations (quoted or bare keys),
deduplicate (`set(names)`), discard the noise word `version`, and return
`none` when reading fails or no name remains. -/
def get_runtime_api_proposals : SourceFile → Option (List String)
  | .absent => none
  | .unreadable => none
  | .readable content =>
    let proposals := ((findAllProposals content).dedup).filter (fun n => !(n == "version"))
    if proposals.isEmpty then none else some proposals

/-- Parse outcome of the system `product.json` fallback source. -/
inductive ProductJson where
  /-- `json.load` raised (`JSONDecodeError` or any other exception). -/
  | invalid
  /-- Parsed object; `extensionEnabledApiProposals` maps extension ids to
  lists of `name@revision` strings and may be absent (`dict.get` default). -/
  | parsed (extensionEnabledApiProposals : Option (List (String × List String)))
deriving DecidableEq

/-- The runtime-file loop of `get_supported_api_proposals` (source lines
299-313): skip missing paths; the first path whose parse yields a
non-empty proposal set wins. -/
def runtimeProposalsLoop : List SourceFile → Option (List String)
  | [] => none
  | .absent :: rest => runtimeProposalsLoop rest
  | f :: rest =>
    match get_runtime_api_proposals f with
    | some proposals => some proposals
    | none => runtimeProposalsLoop rest

/-- Embeds `get_supported_api_proposals` (source lines 289-362).  The
environment is the list of candidate runtime proposal files and the first
existing system `product.json` (`none` when no candidate path exists).
Every fallback failure returns the empty set, never an error. -/
def get_supported_api_proposals (runtime_files : List SourceFile)
    (system_product_json : Option ProductJson) : List String :=
  match runtimeProposalsLoop runtime_files with
  | some proposals => proposals
  | none =>
    match system_product_json with
    | none => []
    | some .invalid => []
    | some (.parsed enabled) =>
      ((enabled.getD []).foldl
        (fun acc p => acc ++ p.2.map normalize_api_proposal) []).dedup

/-- The bundle reader's noise threshold (spec section 4.1: 20 distinct
names). -/
def BUNDLE_NOISE_THRESHOLD : Nat := 20

/-- Modelled from the spec: the bundle reader
(`find_proposals_in_bundle_files`), referenced by
`tests/test_api_detection.py` but absent from the provided source file.
Spec section 4.1(2): the same extraction pattern as the structured-source
reader is applied to a bundle file's content, and the result is accepted
only when the distinct match count meets or exceeds the noise threshold of
20; below threshold the reader returns `none` rather than a suspect
partial set. -/
def find_proposals_in_bundle_file (content : List Char) : Option (List String) :=
  let names := ((findAllProposals content).dedup).filter (fun n => !(n == "version"))
  if BUNDLE_NOISE_THRESHOLD ≤ names.length then some names else none

/-! ### VSIX manifest extraction and the version selector -/

/-- Outcome of opening a downloaded VSIX inside
`extract_api_proposals_from_vsix` (source lines 392-417). -/
inductive VsixExtract where
  /-- `package.json` found and parsed; the `enabledApiProposals` key may be
  absent (`none`), in which case `dict.get` supplies `[]`. -/
  | manifest (enabledApiProposals : Option (List String))
  /-- `zipfile.BadZipFile`: corrupt archive. -/
  | badZipFile
  /-- `KeyError`: neither `extension/package.json` nor `package.json`. -/
  | missingPackageJson
  /-- `json.JSONDecodeError`: invalid JSON in `package.json`. -/
  | invalidJson
  /-- Any other exception while reading the archive. -/
  | otherError
deriving DecidableEq

/-- Embeds `extract_api_proposals_from_vsix`: every error branch prints an
error message and returns the empty list. -/
def extract_api_proposals_from_vsix : VsixExtract → List String
  | .manifest proposals => proposals.getD []
  | _ => []

/-- A `files` entry of a marketplace version record (the two fields the
selector reads; `none` models a missing key). -/
structure VsixAsset where
  assetType : Option String
  source : Option String
deriving DecidableEq

/-- One marketplace version record together with the outcome of fetching
its package: `fetch = none` models an exception raised while downloading
(network error, write failure), caught by the scan loop's `except`. -/
structure VersionRecord where
  version : Option String
  properties : List (String × String)
  files : List VsixAsset
  fetch : Option VsixExtract
deriving DecidableEq

/-- Python `dict(...)` built from a key/value list, then `.get k`: the
last binding of a key wins. -/
def dictGet (props : List (String × String)) (k : String) : Option String :=
  (props.reverse.find? (fun p => p.1 == k)).map (fun p => p.2)

/-- Embeds the `CompatibleVersion` dataclass (source lines 623-628). -/
structure CompatibleVersion where
  version : String
  engine_requirement : String
  vsix_url : String
deriving DecidableEq

/-- The four diagnostic counters of the scan loop (source lines 709-712). -/
structure ScanCounters where
  checked_count : Nat
  skipped_prerelease : Nat
  skipped_incompatible_engine : Nat
  skipped_incompatible_api : Nat
deriving DecidableEq

def prereleaseKey : String := "Microsoft.VisualStudio.Code.PreRelease"

def engineKey : String := "Microsoft.VisualStudio.Code.Engine"

def vsixAssetType : String := "Microsoft.VisualStudio.Services.VSIXPackage"

/-- The scan loop of `find_compatible_version_with_api_check` (source
lines 714-792), one iteration per catalog record, in order:
pre-release skip, missing/empty or incompatible engine skip, missing
package-asset skip, download (an exception skips with a warning), manifest
extraction, and the compatibility gate (only consulted when the extracted
requirement list is non-empty). -/
def scanVersions (target_version : String) (supported_apis : List String) :
    List VersionRecord → ScanCounters → Option CompatibleVersion × ScanCounters
  | [], c => (none, c)
  | ver :: rest, c =>
    let c1 : ScanCounters := ⟨c.checked_count + 1, c.skipped_prerelease,
      c.skipped_incompatible_engine, c.skipped_incompatible_api⟩
    if dictGet ver.properties prereleaseKey == some "true" then
      scanVersions target_version supported_apis rest
        ⟨c1.checked_count, c1.skipped_prerelease + 1,
          c1.skipped_incompatible_engine, c1.skipped_incompatible_api⟩
    else
      match dictGet ver.properties engineKey with
      | none => scanVersions target_version supported_apis rest c1
      | some engine =>
        if engine == "" then scanVersions target_version supported_apis rest c1
        else if !(is_version_compatible target_version engine) then
          scanVersions target_version supported_apis rest
            ⟨c1.checked_count, c1.skipped_prerelease,
              c1.skipped_incompatible_engine + 1, c1.skipped_incompatible_api⟩
        else
          match ver.files.find? (fun f => f.assetType == some vsixAssetType) with
          | none => scanVersions target_version supported_apis rest c1
          | some vsix_file =>
            match vsix_file.source with
            | none => scanVersions target_version supported_apis rest c1
            | some src =>
              if src == "" then scanVersions target_version supported_apis rest c1
              else
                match ver.fetch with
                | none => scanVersions target_version supported_apis rest c1
                | some outcome =>
                  let required_apis := extract_api_proposals_from_vsix outcome
                  if required_apis.isEmpty then
                    (some ⟨ver.version.getD "unknown", engine, src⟩, c1)
                  else if (check_api_compatibility required_apis supported_apis).1 then
                    (some ⟨ver.version.getD "unknown", engine, src⟩, c1)
                  else
                    scanVersions target_version supported_apis rest
                      ⟨c1.checked_count, c1.skipped_prerelease,
                        c1.skipped_incompatible_engine, c1.skipped_incompatible_api + 1⟩

def MAX_VERSIONS_TO_CHECK : Nat := 200

/-- Embeds `find_compatible_version_with_api_check` (source lines
690-799): scan at most `MAX_VERSIONS_TO_CHECK` records in catalog order,
returning the accepted version (if any) together with the diagnostic
counters the source reports. -/
def find_compatible_version_with_api_check (versions : List VersionRecord)
    (target_version : String) (supported_apis : List String) :
    Option CompatibleVersion × ScanCounters :=
  scanVersions target_version supported_apis
    (versions.take MAX_VERSIONS_TO_CHECK) ⟨0, 0, 0, 0⟩

/-! ### Specification-side comparison (section 4.4 of the spec) -/

/-- Follows the spec's words (section 4.4), for comparison with the
embedded comparator: component-wise integer comparison of dotted-integer
versions, padding missing trailing components with 0. -/
def specPadCompare : List Nat → List Nat → Ordering
  | [], [] => .eq
  | [], y :: ys => (compare 0 y).then (specPadCompare [] ys)
  | x :: xs, [] => (compare x 0).then (specPadCompare xs [])
  | x :: xs, y :: ys => (compare x y).then (specPadCompare xs ys)

/-- C2 witness: the gate at a concrete non-empty supported set. -/
theorem claim_C2_witness :
    (((check_api_compatibility ["x@1", "y@2"] ["x"]).1 = true ↔
        ∀ r ∈ (["x@1", "y@2"] : List String),
          normalize_api_proposal r ∈ (["x"] : List String)) ∧
      (check_api_compatibility ["x@1", "y@2"] ["x"]).2 =
        (["x@1", "y@2"] : List String).filter
          (fun proposal => !((["x"] : List String).contains (normalize_api_proposal proposal))) ∧
      ∀ R' : List String,
        (["x@1", "y@2"] : List String).map normalize_api_proposal =
          R'.map normalize_api_proposal →
        (check_api_compatibility ["x@1", "y@2"] ["x"]).1 =
          (check_api_compatibility R' ["x"]).1) :=
  claim_C2_nonempty_supported_gate ["x@1", "y@2"] ["x"] (by decide)

/-- C4: the engine version comparator on the spec's four concrete
examples, and the operator-like prefixes are stripped identically:
`isCompatible(h, "^"+v) = isCompatible(h, ">="+v) = isCompatible(h, "~"+v)`
for every host `h` and version string `v`. -/
theorem claim_C4_engine_comparator_examples :
    is_version_compatible "1.109.51242" "^1.109.0-20260124" = true ∧
    is_version_compatible "1.109.51242" "^1.110.0" = false ∧
    is_version_compatible "1.100.0" "^1.109.0" = false ∧
    is_version_compatible "1.200.0" "^1.109.0" = true ∧
    ∀ h v : String,
      is_version_compatible h ("^" ++ v) = is_version_compatible h (">=" ++ v) ∧
      is_version_compatible h ("^" ++ v) = is_version_compatible h ("~" ++ v) := by
  refine ⟨by decide, by decide, by decide, by decide, ?_⟩
  intro h v
  obtain ⟨d⟩ := v
  have h1 : parse_engine_requirement ("^" ++ ⟨d⟩) = parse_engine_requirement ⟨d⟩ := rfl
  have h2 : parse_engine_requirement (">=" ++ ⟨d⟩) = parse_engine_requirement ⟨d⟩ := rfl
  have h3 : parse_engine_requirement ("~" ++ ⟨d⟩) = parse_engine_requirement ⟨d⟩ := rfl
  constructor
  · simp only [is_version_compatible, h1, h2]
  · simp only [is_version_compatible, h1, h3]

/-- C8: a parse failure (`InvalidVersion`) on either side makes the
comparator return `false` — the candidate is conservatively treated as
incompatible and, the embedding being a total function, no exception can
propagate. -/
theorem claim_C8_parse_failure_false (h r : String)
    (hfail : pyVersionParse h = none ∨
      pyVersionParse (parse_engine_requirement r) = none) :
    is_version_compatible h r = false := by
  unfold is_version_compatible
  rcases hfail with hf | hf
  · cases h2 : pyVersionParse (parse_engine_requirement r) <;> rw [hf]
  · cases h1 : pyVersionParse h <;> rw [hf]

/-- C8 witness: an unparsable host version string yields `false`. -/
theorem claim_C8_witness :
    is_version_compatible "not a version" "^1.0" = false :=
  claim_C8_parse_failure_false "not a version" "^1.0" (Or.inl (by decide))

/-- A version whose only content is a release segment (no epoch, no
pre/post/dev qualifier, no local part). -/
def plainVersion (release : List Nat) : PyVersion :=
  ⟨0, release, none, none, none, none⟩

theorem ordering_then_eq_right (o : Ordering) : o.then .eq = o := by
  cases o <;> rfl

theorem ordering_eq_then (o : Ordering) : Ordering.eq.then o = o := rfl

theorem nat_compare_zero_zero : compare (0 : Nat) 0 = Ordering.eq := by decide

theorem specPadCompare_append_zero_right (b : List Nat) :
    ∀ a, specPadCompare a (b ++ [0]) = specPadCompare a b := by
  induction b with
  | nil =>
    intro a
    cases a with
    | nil => simp [specPadCompare, nat_compare_zero_zero, ordering_eq_then]
    | cons x xs => simp [specPadCompare]
  | cons y ys ih =>
    intro a
    cases a with
    | nil => simp [specPadCompare, ih]
    | cons x xs => simp [specPadCompare, ih]

theorem specPadCompare_append_zero_left (a : List Nat) :
    ∀ b, specPadCompare (a ++ [0]) b = specPadCompare a b := by
  induction a with
  | nil =>
    intro b
    cases b with
    | nil => simp [specPadCompare, nat_compare_zero_zero, ordering_eq_then]
    | cons y ys => simp [specPadCompare]
  | cons x xs ih =>
    intro b
    cases b with
    | nil => simp [specPadCompare, ih]
    | cons y ys => simp [specPadCompare, ih]

theorem specPadCompare_append_replicate_right (k : Nat) :
    ∀ b a, specPadCompare a (b ++ List.replicate k 0) = specPadCompare a b := by
  induction k with
  | zero => intro b a; simp
  | succ k ih =>
    intro b a
    have : b ++ List.replicate (k + 1) 0 = (b ++ [0]) ++ List.replicate k 0 := by
      simp [List.replicate_succ, List.append_assoc]
    rw [this, ih (b ++ [0]) a, specPadCompare_append_zero_right]

theorem specPadCompare_append_replicate_left (k : Nat) :
    ∀ a b, specPadCompare (a ++ List.replicate k 0) b = specPadCompare a b := by
  induction k with
  | zero => intro a b; simp
  | succ k ih =>
    intro a b
    have : a ++ List.replicate (k + 1) 0 = (a ++ [0]) ++ List.replicate k 0 := by
      simp [List.replicate_succ, List.append_assoc]
    rw [this, ih (a ++ [0]) b, specPadCompare_append_zero_left]

theorem dropTrailingZeros_decomp (l : List Nat) :
    ∃ k, l = dropTrailingZeros l ++ List.replicate k 0 := by
  refine ⟨(l.reverse.takeWhile (fun x => x == 0)).length, ?_⟩
  have hsplit :
      l.reverse.takeWhile (fun x => x == 0) ++ l.reverse.dropWhile (fun x => x == 0) =
        l.reverse :=
    List.takeWhile_append_dropWhile (fun x => x == 0) l.reverse
  have hrep : (l.reverse.takeWhile (fun x => x == 0)).reverse =
      List.replicate (l.reverse.takeWhile (fun x => x == 0)).length 0 := by
    rw [List.eq_replicate_iff]
    refine ⟨by simp, ?_⟩
    intro b hb
    rw [List.mem_reverse] at hb
    have := List.mem_takeWhile_imp hb
    simpa using this
  calc l = l.reverse.reverse := by rw [List.reverse_reverse]
    _ = (l.reverse.takeWhile (fun x => x == 0) ++
          l.reverse.dropWhile (fun x => x == 0)).reverse := by rw [hsplit]
    _ = dropTrailingZeros l ++ (l.reverse.takeWhile (fun x => x == 0)).reverse := by
          rw [List.reverse_append]; rfl
    _ = dropTrailingZeros l ++
          List.replicate (l.reverse.takeWhile (fun x => x == 0)).length 0 := by rw [hrep]

theorem head?_dropWhile_ne_zero :
    ∀ (l : List Nat) (x : Nat), (l.dropWhile (fun v => v == 0)).head? = some x → x ≠ 0 := by
  intro l
  induction l with
  | nil => intro x hx; simp at hx
  | cons a l ih =>
    intro x hx
    by_cases ha : a = 0
    · subst ha
      rw [List.dropWhile_cons_of_pos (by simp)] at hx
      exact ih x hx
    · rw [List.dropWhile_cons_of_neg (by simpa using ha)] at hx
      simp at hx
      omega

theorem dropTrailingZeros_last_ne_zero (l : List Nat) :
    (dropTrailingZeros l).getLast? ≠ some 0 := by
  intro hlast
  have h1 : (l.reverse.dropWhile (fun v => v == 0)).head? = some 0 := by
    have := List.getLast?_reverse (l.reverse.dropWhile (fun v => v == 0))
    rw [← this]
    exact hlast
  exact head?_dropWhile_ne_zero l.reverse 0 h1 rfl

theorem getLast?_tail_ne_zero (x : Nat) (xs : List Nat)
    (h : (x :: xs).getLast? ≠ some 0) : xs.getLast? ≠ some 0 := by
  cases xs with
  | nil => simp
  | cons y ys => rw [List.getLast?_cons_cons] at h; exact h

theorem specPadCompare_nil_lt (l : List Nat) :
    l ≠ [] → l.getLast? ≠ some 0 → specPadCompare [] l = .lt := by
  induction l with
  | nil => intro h; exact absurd rfl h
  | cons x xs ih =>
    intro _ hlast
    cases xs with
    | nil =>
      have hx : x ≠ 0 := by simpa using hlast
      have hc : compare 0 x = Ordering.lt := by
        rw [Nat.compare_eq_lt]
        omega
      simp [specPadCompare, hc, ordering_then_eq_right]
    | cons y ys =>
      have htail : (y :: ys).getLast? ≠ some 0 := getLast?_tail_ne_zero x _ hlast
      by_cases hx : x = 0
      · subst hx
        have hrec := ih (by simp) htail
        simp only [specPadCompare, nat_compare_zero_zero, ordering_eq_then]
        simpa only [specPadCompare, nat_compare_zero_zero, ordering_eq_then] using hrec
      · have hc : compare 0 x = Ordering.lt := by
          rw [Nat.compare_eq_lt]
          omega
        simp only [specPadCompare, hc]
        rfl

theorem specPadCompare_nil_gt (l : List Nat) :
    l ≠ [] → l.getLast? ≠ some 0 → specPadCompare l [] = .gt := by
  induction l with
  | nil => intro h; exact absurd rfl h
  | cons x xs ih =>
    intro _ hlast
    cases xs with
    | nil =>
      have hx : x ≠ 0 := by simpa using hlast
      have hc : compare x 0 = Ordering.gt := by
        rw [Nat.compare_eq_gt]
        omega
      simp [specPadCompare, hc, ordering_then_eq_right]
    | cons y ys =>
      have htail : (y :: ys).getLast? ≠ some 0 := getLast?_tail_ne_zero x _ hlast
      by_cases hx : x = 0
      · subst hx
        have hrec := ih (by simp) htail
        simp only [specPadCompare, nat_compare_zero_zero, ordering_eq_then]
        simpa only [specPadCompare, nat_compare_zero_zero, ordering_eq_then] using hrec
      · have hc : compare x 0 = Ordering.gt := by
          rw [Nat.compare_eq_gt]
          omega
        simp only [specPadCompare, hc]
        rfl

theorem cmpNatList_eq_specPadCompare :
    ∀ a b : List Nat, a.getLast? ≠ some 0 → b.getLast? ≠ some 0 →
      cmpNatList a b = specPadCompare a b := by
  intro a
  induction a with
  | nil =>
    intro b _ hb
    cases b with
    | nil => simp [cmpNatList, specPadCompare]
    | cons y ys =>
      rw [specPadCompare_nil_lt (y :: ys) (by simp) hb]
      simp [cmpNatList]
  | cons x xs ih =>
    intro b ha hb
    cases b with
    | nil =>
      rw [specPadCompare_nil_gt (x :: xs) (by simp) ha]
      simp [cmpNatList]
    | cons y ys =>
      simp only [cmpNatList, specPadCompare]
      rw [ih ys (getLast?_tail_ne_zero x xs ha) (getLast?_tail_ne_zero y ys hb)]

theorem cmpRelease_eq_specPadCompare (a b : List Nat) :
    cmpNatList (dropTrailingZeros a) (dropTrailingZeros b) = specPadCompare a b := by
  rw [cmpNatList_eq_specPadCompare (dropTrailingZeros a) (dropTrailingZeros b)
    (dropTrailingZeros_last_ne_zero a) (dropTrailingZeros_last_ne_zero b)]
  obtain ⟨k, hk⟩ := dropTrailingZeros_decomp a
  obtain ⟨m, hm⟩ := dropTrailingZeros_decomp b
  conv_rhs => rw [hk, hm]
  rw [specPadCompare_append_replicate_right m (dropTrailingZeros b)
    (dropTrailingZeros a ++ List.replicate k 0)]
  rw [specPadCompare_append_replicate_left k (dropTrailingZeros a) (dropTrailingZeros b)]

theorem cmpPyVersion_plain (a b : List Nat) :
    cmpPyVersion (plainVersion a) (plainVersion b) = specPadCompare a b := by
  simp only [cmpPyVersion, plainVersion, preKeyOf, cmpPreKey, cmpPostKey, cmpDevKey,
    cmpLocalKey, nat_compare_zero_zero, ordering_eq_then, ordering_then_eq_right]
  exact cmpRelease_eq_specPadCompare a b

/-- C7 counterexample: the embedded comparator does not ignore a trailing
non-numeric qualifier.  For host `"1.0-alpha"` the qualifier makes the
comparison against `"1.0"` fail (PEP 440 parses it as the pre-release
`1.0a0`, which sorts below `1.0`), while the qualifier-free host `"1.0"`
succeeds; and the qualifier `-insiders` is not even parseable, again
yielding `false` instead of the qualifier-free `true`. -/
theorem claim_C7_counterexample :
    is_version_compatible "1.0-alpha" "1.0" = false ∧
    is_version_compatible "1.0" "1.0" = true ∧
    is_version_compatible "1.0-insiders" "1.0" = false :=
  ⟨by decide, by decide, by decide⟩

/-- C7 (amended): the comparator parses both sides per PEP 440 —
trailing qualifiers are recorded, not ignored, and can change the result —
but whenever both sides parse as plain dotted-integer versions the result
is exactly host ≥ required under component-wise integer comparison with
missing trailing components padded by 0. -/
theorem claim_C7_amended_plain_versions (h r : String) (hs rs : List Nat)
    (hh : pyVersionParse h = some (plainVersion hs))
    (hr : pyVersionParse (parse_engine_requirement r) = some (plainVersion rs)) :
    is_version_compatible h r = !(specPadCompare hs rs == .lt) := by
  unfold is_version_compatible
  rw [hh, hr]
  show (!(cmpPyVersion (plainVersion hs) (plainVersion rs) == Ordering.lt)) =
    (!(specPadCompare hs rs == Ordering.lt))
  rw [cmpPyVersion_plain]

/-- C7 witness: the amended statement at a concrete host and requirement. -/
theorem claim_C7_witness :
    is_version_compatible "1.2" "^1.2.0" = !(specPadCompare [1, 2] [1, 2, 0] == .lt) :=
  claim_C7_amended_plain_versions "1.2" "^1.2.0" [1, 2] [1, 2, 0] (by decide) (by decide)

/-! ### Scan-loop step lemmas -/

theorem scanVersions_prerelease_step (host : String) (S : List String)
    (v : VersionRecord) (rest : List VersionRecord) (c : ScanCounters)
    (h : dictGet v.properties prereleaseKey = some "true") :
    scanVersions host S (v :: rest) c =
      scanVersions host S rest
        ⟨c.checked_count + 1, c.skipped_prerelease + 1,
          c.skipped_incompatible_engine, c.skipped_incompatible_api⟩ := by
  simp [scanVersions, h]

theorem scanVersions_engine_mismatch_step (host : String) (S : List String)
    (v : VersionRecord) (rest : List VersionRecord) (c : ScanCounters) (e : String)
    (hpre : dictGet v.properties prereleaseKey ≠ some "true")
    (heng : dictGet v.properties engineKey = some e)
    (hene : e ≠ "")
    (hcmp : is_version_compatible host e = false) :
    scanVersions host S (v :: rest) c =
      scanVersions host S rest
        ⟨c.checked_count + 1, c.skipped_prerelease,
          c.skipped_incompatible_engine + 1, c.skipped_incompatible_api⟩ := by
  have hpre' : (dictGet v.properties prereleaseKey == some "true") = false :=
    beq_eq_false_iff_ne.mpr hpre
  have hene' : (e == "") = false := beq_eq_false_iff_ne.mpr hene
  simp [scanVersions, hpre', heng, hene', hcmp]

theorem scanVersions_no_asset_step (host : String) (S : List String)
    (v : VersionRecord) (rest : List VersionRecord) (c : ScanCounters) (e : String)
    (hpre : dictGet v.properties prereleaseKey ≠ some "true")
    (heng : dictGet v.properties engineKey = some e)
    (hene : e ≠ "")
    (hcmp : is_version_compatible host e = true)
    (hfind : v.files.find? (fun f => f.assetType == some vsixAssetType) = none) :
    scanVersions host S (v :: rest) c =
      scanVersions host S rest
        ⟨c.checked_count + 1, c.skipped_prerelease,
          c.skipped_incompatible_engine, c.skipped_incompatible_api⟩ := by
  have hpre' : (dictGet v.properties prereleaseKey == some "true") = false :=
    beq_eq_false_iff_ne.mpr hpre
  have hene' : (e == "") = false := beq_eq_false_iff_ne.mpr hene
  simp [scanVersions, hpre', heng, hene', hcmp, hfind]

theorem scanVersions_fetch_failure_step (host : String) (S : List String)
    (v : VersionRecord) (rest : List VersionRecord) (c : ScanCounters)
    (e u : String) (f : VsixAsset)
    (hpre : dictGet v.properties prereleaseKey ≠ some "true")
    (heng : dictGet v.properties engineKey = some e)
    (hene : e ≠ "")
    (hcmp : is_version_compatible host e = true)
    (hfind : v.files.find? (fun a => a.assetType == some vsixAssetType) = some f)
    (hsrc : f.source = some u)
    (hune : u ≠ "")
    (hfetch : v.fetch = none) :
    scanVersions host S (v :: rest) c =
      scanVersions host S rest
        ⟨c.checked_count + 1, c.skipped_prerelease,
          c.skipped_incompatible_engine, c.skipped_incompatible_api⟩ := by
  have hpre' : (dictGet v.properties prereleaseKey == some "true") = false :=
    beq_eq_false_iff_ne.mpr hpre
  have hene' : (e == "") = false := beq_eq_false_iff_ne.mpr hene
  have hune' : (u == "") = false := beq_eq_false_iff_ne.mpr hune
  simp [scanVersions, hpre', heng, hene', hcmp, hfind, hsrc, hune', hfetch]

theorem scanVersions_accept_step (host : String) (S : List String)
    (v : VersionRecord) (rest : List VersionRecord) (c : ScanCounters)
    (e u : String) (f : VsixAsset) (o : VsixExtract)
    (hpre : dictGet v.properties prereleaseKey ≠ some "true")
    (heng : dictGet v.properties engineKey = some e)
    (hene : e ≠ "")
    (hcmp : is_version_compatible host e = true)
    (hfind : v.files.find? (fun a => a.assetType == some vsixAssetType) = some f)
    (hsrc : f.source = some u)
    (hune : u ≠ "")
    (hfetch : v.fetch = some o)
    (hok : extract_api_proposals_from_vsix o = [] ∨
      (check_api_compatibility (extract_api_proposals_from_vsix o) S).1 = true) :
    scanVersions host S (v :: rest) c =
      (some ⟨v.version.getD "unknown", e, u⟩,
        ⟨c.checked_count + 1, c.skipped_prerelease,
          c.skipped_incompatible_engine, c.skipped_incompatible_api⟩) := by
  have hpre' : (dictGet v.properties prereleaseKey == some "true") = false :=
    beq_eq_false_iff_ne.mpr hpre
  have hene' : (e == "") = false := beq_eq_false_iff_ne.mpr hene
  have hune' : (u == "") = false := beq_eq_false_iff_ne.mpr hune
  rcases hok with hok | hok
  · simp [scanVersions, hpre', heng, hene', hcmp, hfind, hsrc, hune', hfetch, hok]
  · by_cases hreq : (extract_api_proposals_from_vsix o).isEmpty
    · simp [scanVersions, hpre', heng, hene', hcmp, hfind, hsrc, hune', hfetch, hreq]
    · simp [scanVersions, hpre', heng, hene', hcmp, hfind, hsrc, hune', hfetch, hreq, hok]

/-- C3: for a catalog holding, in order, a pre-release record, an
engine-mismatched record, a record missing its downloadable package
asset, and a fully compatible record, the selector skips the first three
for their respective reasons (the missing-package skip not counted as a
distinguished rejection), accepts the fourth, and reports counters
checked = 4, prerelease-skips = 1, engine-mismatch-skips = 1,
capability-mismatch-skips = 0. -/
theorem claim_C3_end_to_end_selector
    (host : String) (supported : List String)
    (r1 r2 r3 r4 : VersionRecord) (e2 e3 e4 : String)
    (f4 : VsixAsset) (u4 : String) (o4 : VsixExtract)
    (h1 : dictGet r1.properties prereleaseKey = some "true")
    (h2a : dictGet r2.properties prereleaseKey ≠ some "true")
    (h2b : dictGet r2.properties engineKey = some e2)
    (h2c : e2 ≠ "")
    (h2d : is_version_compatible host e2 = false)
    (h3a : dictGet r3.properties prereleaseKey ≠ some "true")
    (h3b : dictGet r3.properties engineKey = some e3)
    (h3c : e3 ≠ "")
    (h3d : is_version_compatible host e3 = true)
    (h3e : r3.files.find? (fun f => f.assetType == some vsixAssetType) = none)
    (h4a : dictGet r4.properties prereleaseKey ≠ some "true")
    (h4b : dictGet r4.properties engineKey = some e4)
    (h4c : e4 ≠ "")
    (h4d : is_version_compatible host e4 = true)
    (h4e : r4.files.find? (fun f => f.assetType == some vsixAssetType) = some f4)
    (h4f : f4.source = some u4)
    (h4g : u4 ≠ "")
    (h4h : r4.fetch = some o4)
    (h4i : (check_api_compatibility (extract_api_proposals_from_vsix o4) supported).1 = true) :
    find_compatible_version_with_api_check [r1, r2, r3, r4] host supported =
      (some ⟨r4.version.getD "unknown", e4, u4⟩, ⟨4, 1, 1, 0⟩) := by
  unfold find_compatible_version_with_api_check
  have htake : ([r1, r2, r3, r4].take MAX_VERSIONS_TO_CHECK) = [r1, r2, r3, r4] := rfl
  rw [htake]
  rw [scanVersions_prerelease_step host supported r1 [r2, r3, r4] ⟨0, 0, 0, 0⟩ h1]
  rw [scanVersions_engine_mismatch_step host supported r2 [r3, r4] _ e2 h2a h2b h2c h2d]
  rw [scanVersions_no_asset_step host supported r3 [r4] _ e3 h3a h3b h3c h3d h3e]
  rw [scanVersions_accept_step host supported r4 [] _ e4 u4 f4 o4
    h4a h4b h4c h4d h4e h4f h4g h4h (Or.inr h4i)]

/-- C3 witness: the end-to-end scenario on a concrete four-record
catalog for host 1.109.51242. -/
theorem claim_C3_witness :
    find_compatible_version_with_api_check
        [⟨some "1.0.1", [(prereleaseKey, "true")], [], none⟩,
          ⟨some "1.0.2", [(engineKey, "^1.110.0")], [], none⟩,
          ⟨some "1.0.3", [(engineKey, "^1.109.0")], [], none⟩,
          ⟨some "1.0.4", [(engineKey, "^1.109.0")],
            [⟨some vsixAssetType, some "http://x"⟩],
            some (.manifest (some ["chatHooks@6"]))⟩]
        "1.109.51242" ["chatHooks"] =
      (some ⟨"1.0.4", "^1.109.0", "http://x"⟩, ⟨4, 1, 1, 0⟩) :=
  claim_C3_end_to_end_selector "1.109.51242" ["chatHooks"]
    ⟨some "1.0.1", [(prereleaseKey, "true")], [], none⟩
    ⟨some "1.0.2", [(engineKey, "^1.110.0")], [], none⟩
    ⟨some "1.0.3", [(engineKey, "^1.109.0")], [], none⟩
    ⟨some "1.0.4", [(engineKey, "^1.109.0")],
      [⟨some vsixAssetType, some "http://x"⟩],
      some (.manifest (some ["chatHooks@6"]))⟩
    "^1.110.0" "^1.109.0" "^1.109.0"
    ⟨some vsixAssetType, some "http://x"⟩ "http://x"
    (.manifest (some ["chatHooks@6"]))
    (by decide) (by decide) (by decide) (by decide) (by decide)
    (by decide) (by decide) (by decide) (by decide) (by decide)
    (by decide) (by decide) (by decide) (by decide) (by decide)
    (by decide) (by decide) (by decide) (by decide)

theorem runtimeProposalsLoop_none (paths : List SourceFile)
    (h : ∀ f ∈ paths, get_runtime_api_proposals f = none) :
    runtimeProposalsLoop paths = none := by
  induction paths with
  | nil => rfl
  | cons f rest ih =>
    have hf := h f (List.mem_cons_self f rest)
    have hrest := ih (fun g hg => h g (List.mem_cons_of_mem f hg))
    cases f with
    | absent => simpa [runtimeProposalsLoop] using hrest
    | unreadable => simp [runtimeProposalsLoop, hf, hrest]
    | readable content => simp [runtimeProposalsLoop, hf, hrest]

/-- C5: when no runtime proposals file is readable and usable and the
permission-list `product.json` is missing or unparseable, the capability
resolver returns the empty set (permissive mode; the embedding is a total
function, so nothing is raised), the gate then accepts every requirement
list, and a version requiring arbitrary capabilities is still accepted
end-to-end by the selector. -/
theorem claim_C5_permissive_fallback
    (paths : List SourceFile) (pj : Option ProductJson)
    (hrt : ∀ f ∈ paths, get_runtime_api_proposals f = none)
    (hpj : pj = none ∨ pj = some .invalid)
    (host v e u : String) (R : List String)
    (he : e ≠ "") (hc : is_version_compatible host e = true) (hu : u ≠ "") :
    get_supported_api_proposals paths pj = [] ∧
    (∀ reqs : List String,
      check_api_compatibility reqs (get_supported_api_proposals paths pj) = (true, [])) ∧
    find_compatible_version_with_api_check
        [⟨some v, [(engineKey, e)], [⟨some vsixAssetType, some u⟩],
          some (.manifest (some R))⟩]
        host (get_supported_api_proposals paths pj) =
      (some ⟨v, e, u⟩, ⟨1, 0, 0, 0⟩) := by
  have hloop := runtimeProposalsLoop_none paths hrt
  have hempty : get_supported_api_proposals paths pj = [] := by
    rcases hpj with hpj | hpj <;> simp [get_supported_api_proposals, hloop, hpj]
  refine ⟨hempty, ?_, ?_⟩
  · intro reqs
    rw [hempty]
    rfl
  · rw [hempty]
    unfold find_compatible_version_with_api_check
    have htake :
        ([(⟨some v, [(engineKey, e)], [⟨some vsixAssetType, some u⟩],
          some (.manifest (some R))⟩ : VersionRecord)].take MAX_VERSIONS_TO_CHECK) =
        [⟨some v, [(engineKey, e)], [⟨some vsixAssetType, some u⟩],
          some (.manifest (some R))⟩] := rfl
    rw [htake]
    rw [scanVersions_accept_step host []
      ⟨some v, [(engineKey, e)], [⟨some vsixAssetType, some u⟩],
        some (.manifest (some R))⟩ [] ⟨0, 0, 0, 0⟩ e u
      ⟨some vsixAssetType, some u⟩ (.manifest (some R))
      (by simp [dictGet, prereleaseKey, engineKey])
      (by simp [dictGet, engineKey])
      he hc
      (by simp [List.find?])
      rfl hu rfl
      (Or.inr rfl)]
    rfl

/-- C5 witness: the permissive fallback with an unreadable runtime file, a
matchless readable file, and an invalid `product.json`. -/
theorem claim_C5_witness :
    get_supported_api_proposals [.unreadable, .readable "hello world".toList]
        (some .invalid) = [] ∧
    (∀ reqs : List String,
      check_api_compatibility reqs
        (get_supported_api_proposals [.unreadable, .readable "hello world".toList]
          (some .invalid)) = (true, [])) ∧
    find_compatible_version_with_api_check
        [⟨some "1.2.3", [(engineKey, "^1.109.0")],
          [⟨some vsixAssetType, some "http://x"⟩],
          some (.manifest (some ["notImplementedAnywhere@7"]))⟩]
        "1.109.51242"
        (get_supported_api_proposals [.unreadable, .readable "hello world".toList]
          (some .invalid)) =
      (some ⟨"1.2.3", "^1.109.0", "http://x"⟩, ⟨1, 0, 0, 0⟩) :=
  claim_C5_permissive_fallback [.unreadable, .readable "hello world".toList]
    (some .invalid) (by decide) (Or.inr rfl)
    "1.109.51242" "1.2.3" "^1.109.0" "http://x" ["notImplementedAnywhere@7"]
    (by decide) (by decide) (by decide)

/-- C6 counterexample: a record whose package downloads but whose archive
is corrupt (`zipfile.BadZipFile` during manifest extraction) is not
skipped — extraction returns `[]`, the gate is bypassed, and the record
is accepted, refuting "such a failure ... never causes that record to be
accepted". -/
theorem claim_C6_counterexample :
    find_compatible_version_with_api_check
        [⟨some "9.9.9", [(engineKey, "^1.109.0")],
          [⟨some vsixAssetType, some "http://u"⟩], some .badZipFile⟩]
        "1.109.51242" ["someApi"] =
      (some ⟨"9.9.9", "^1.109.0", "http://u"⟩, ⟨1, 0, 0, 0⟩) := by
  decide

/-- C6 (amended): for a record that reaches the package-probe step, an
exception while fetching the package (network error, write failure) skips
the record with a logged warning and scanning continues with the next
record — never fatal and the failed record is never accepted; a failure
while extracting the manifest (corrupt archive, missing or invalid
manifest), however, yields an empty requirement list and the record is
accepted rather than skipped. -/
theorem claim_C6_amended_fetch_failure_skips (host : String) (S : List String)
    (v : VersionRecord) (rest : List VersionRecord) (c : ScanCounters)
    (e u : String) (f : VsixAsset)
    (hpre : dictGet v.properties prereleaseKey ≠ some "true")
    (heng : dictGet v.properties engineKey = some e)
    (hene : e ≠ "")
    (hcmp : is_version_compatible host e = true)
    (hfind : v.files.find? (fun a => a.assetType == some vsixAssetType) = some f)
    (hsrc : f.source = some u)
    (hune : u ≠ "") :
    (v.fetch = none →
      scanVersions host S (v :: rest) c =
        scanVersions host S rest
          ⟨c.checked_count + 1, c.skipped_prerelease,
            c.skipped_incompatible_engine, c.skipped_incompatible_api⟩) ∧
    (∀ o : VsixExtract, v.fetch = some o →
      extract_api_proposals_from_vsix o = [] →
      scanVersions host S (v :: rest) c =
        (some ⟨v.version.getD "unknown", e, u⟩,
          ⟨c.checked_count + 1, c.skipped_prerelease,
            c.skipped_incompatible_engine, c.skipped_incompatible_api⟩)) := by
  constructor
  · intro hfetch
    exact scanVersions_fetch_failure_step host S v rest c e u f
      hpre heng hene hcmp hfind hsrc hune hfetch
  · intro o ho hext
    exact scanVersions_accept_step host S v rest c e u f o
      hpre heng hene hcmp hfind hsrc hune ho (Or.inl hext)

/-- C6 witness: the amended statement on a concrete record whose download
raises. -/
theorem claim_C6_witness :
    ((⟨some "2.0.0", [(engineKey, "^1.109.0")],
        [⟨some vsixAssetType, some "http://u"⟩], none⟩ : VersionRecord).fetch = none →
      scanVersions "1.109.51242" ["x"]
          [⟨some "2.0.0", [(engineKey, "^1.109.0")],
            [⟨some vsixAssetType, some "http://u"⟩], none⟩] ⟨0, 0, 0, 0⟩ =
        scanVersions "1.109.51242" ["x"] [] ⟨0 + 1, 0, 0, 0⟩) ∧
    (∀ o : VsixExtract,
      (⟨some "2.0.0", [(engineKey, "^1.109.0")],
        [⟨some vsixAssetType, some "http://u"⟩], none⟩ : VersionRecord).fetch = some o →
      extract_api_proposals_from_vsix o = [] →
      scanVersions "1.109.51242" ["x"]
          [⟨some "2.0.0", [(engineKey, "^1.109.0")],
            [⟨some vsixAssetType, some "http://u"⟩], none⟩] ⟨0, 0, 0, 0⟩ =
        (some ⟨"2.0.0", "^1.109.0", "http://u"⟩, ⟨0 + 1, 0, 0, 0⟩)) :=
  claim_C6_amended_fetch_failure_skips "1.109.51242" ["x"]
    ⟨some "2.0.0", [(engineKey, "^1.109.0")],
      [⟨some vsixAssetType, some "http://u"⟩], none⟩ [] ⟨0, 0, 0, 0⟩
    "^1.109.0" "http://u" ⟨some vsixAssetType, some "http://u"⟩
    (by decide) (by decide) (by decide) (by decide) (by decide) (by decide) (by decide)

/-- C10: manifest extraction returns the empty list on every error
outcome (corrupt archive, missing or invalid manifest) exactly as it does
for a package declaring no capabilities, and a record whose download
succeeded with an empty extracted requirement list is accepted
immediately, with the same outcome for every supported-capability set —
the compatibility gate never influences the result. -/
theorem claim_C10_empty_manifest_accepted (host : String)
    (v : VersionRecord) (rest : List VersionRecord) (c : ScanCounters)
    (e u : String) (f : VsixAsset) (o : VsixExtract)
    (hpre : dictGet v.properties prereleaseKey ≠ some "true")
    (heng : dictGet v.properties engineKey = some e)
    (hene : e ≠ "")
    (hcmp : is_version_compatible host e = true)
    (hfind : v.files.find? (fun a => a.assetType == some vsixAssetType) = some f)
    (hsrc : f.source = some u)
    (hune : u ≠ "")
    (hfetch : v.fetch = some o)
    (hext : extract_api_proposals_from_vsix o = []) :
    (extract_api_proposals_from_vsix .badZipFile = [] ∧
      extract_api_proposals_from_vsix .missingPackageJson = [] ∧
      extract_api_proposals_from_vsix .invalidJson = [] ∧
      extract_api_proposals_from_vsix .otherError = [] ∧
      extract_api_proposals_from_vsix (.manifest none) = []) ∧
    ∀ S : List String,
      scanVersions host S (v :: rest) c =
        (some ⟨v.version.getD "unknown", e, u⟩,
          ⟨c.checked_count + 1, c.skipped_prerelease,
            c.skipped_incompatible_engine, c.skipped_incompatible_api⟩) := by
  refine ⟨⟨rfl, rfl, rfl, rfl, rfl⟩, ?_⟩
  intro S
  exact scanVersions_accept_step host S v rest c e u f o
    hpre heng hene hcmp hfind hsrc hune hfetch (Or.inl hext)

/-- C10 witness: a concrete record with a corrupt archive is accepted for
an arbitrary supported set. -/
theorem claim_C10_witness :
    ((extract_api_proposals_from_vsix .badZipFile = [] ∧
      extract_api_proposals_from_vsix .missingPackageJson = [] ∧
      extract_api_proposals_from_vsix .invalidJson = [] ∧
      extract_api_proposals_from_vsix .otherError = [] ∧
      extract_api_proposals_from_vsix (.manifest none) = []) ∧
    ∀ S : List String,
      scanVersions "1.109.51242" S
          [⟨some "3.0.0", [(engineKey, "^1.109.0")],
            [⟨some vsixAssetType, some "http://w"⟩], some .badZipFile⟩] ⟨0, 0, 0, 0⟩ =
        (some ⟨"3.0.0", "^1.109.0", "http://w"⟩, ⟨0 + 1, 0, 0, 0⟩)) :=
  claim_C10_empty_manifest_accepted "1.109.51242"
    ⟨some "3.0.0", [(engineKey, "^1.109.0")],
      [⟨some vsixAssetType, some "http://w"⟩], some .badZipFile⟩ [] ⟨0, 0, 0, 0⟩
    "^1.109.0" "http://w" ⟨some vsixAssetType, some "http://w"⟩ .badZipFile
    (by decide) (by decide) (by decide) (by decide) (by decide)
    (by decide) (by decide) (by decide) (by decide)

/-- C9: for every bundle file content, the bundle reader returns `none`
whenever the number of distinct matched capability names is below the
noise threshold of 20, and returns the full matched set when the count is
20 or more (the extraction pattern matches quoted and bare names alike,
as the witness exercises). -/
theorem claim_C9_bundle_noise_threshold (content : List Char) :
    (((findAllProposals content).dedup.filter (fun n => !(n == "version"))).length <
        BUNDLE_NOISE_THRESHOLD →
      find_proposals_in_bundle_file content = none) ∧
    (BUNDLE_NOISE_THRESHOLD ≤
        ((findAllProposals content).dedup.filter (fun n => !(n == "version"))).length →
      find_proposals_in_bundle_file content =
        some ((findAllProposals content).dedup.filter (fun n => !(n == "version")))) := by
  constructor
  · intro h
    have hn : ¬ (BUNDLE_NOISE_THRESHOLD ≤
        ((findAllProposals content).dedup.filter (fun n => !(n == "version"))).length) :=
      Nat.not_le.mpr h
    simp only [find_proposals_in_bundle_file, if_neg hn]
  · intro h
    simp only [find_proposals_in_bundle_file, if_pos h]

set_option maxRecDepth 100000 in
/-- C9 witness: a bundle with 20 distinct declarations (mixing quoted and
bare keys) yields the full set; the same bundle with only 19 declarations
yields `none`. -/
theorem claim_C9_witness :
    find_proposals_in_bundle_file ("\"a0\": \x7bversion: 0\x7d, b1: \x7bversion: 1\x7d, \"c2\": \x7bversion: 2\x7d, d3: \x7bversion: 3\x7d, \"e4\": \x7bversion: 4\x7d, f5: \x7bversion: 5\x7d, \"g6\": \x7bversion: 6\x7d, h7: \x7bversion: 7\x7d, \"i8\": \x7bversion: 8\x7d, j9: \x7bversion: 9\x7d, \"k10\": \x7bversion: 10\x7d, l11: \x7bversion: 11\x7d, \"m12\": \x7bversion: 12\x7d, n13: \x7bversion: 13\x7d, \"o14\": \x7bversion: 14\x7d, p15: \x7bversion: 15\x7d, \"q16\": \x7bversion: 16\x7d, r17: \x7bversion: 17\x7d, \"s18\": \x7bversion: 18\x7d, t19: \x7bversion: 19\x7d" : String).toList =
      some ["a0", "b1", "c2", "d3", "e4", "f5", "g6", "h7", "i8", "j9", "k10",
        "l11", "m12", "n13", "o14", "p15", "q16", "r17", "s18", "t19"] ∧
    find_proposals_in_bundle_file ("\"a0\": \x7bversion: 0\x7d, b1: \x7bversion: 1\x7d, \"c2\": \x7bversion: 2\x7d, d3: \x7bversion: 3\x7d, \"e4\": \x7bversion: 4\x7d, f5: \x7bversion: 5\x7d, \"g6\": \x7bversion: 6\x7d, h7: \x7bversion: 7\x7d, \"i8\": \x7bversion: 8\x7d, j9: \x7bversion: 9\x7d, \"k10\": \x7bversion: 10\x7d, l11: \x7bversion: 11\x7d, \"m12\": \x7bversion: 12\x7d, n13: \x7bversion: 13\x7d, \"o14\": \x7bversion: 14\x7d, p15: \x7bversion: 15\x7d, \"q16\": \x7bversion: 16\x7d, r17: \x7bversion: 17\x7d, \"s18\": \x7bversion: 18\x7d" : String).toList =
      none := by
  constructor
  · rw [(claim_C9_bundle_noise_threshold _).2 (by decide)]
    decide
  · exact (claim_C9_bundle_noise_threshold _).1 (by decide)
